import Mathlib

/-!
Shallow embedding of the zombie-game round engine.

The definitions below are translated from the repository source, chiefly
from zombie_game_threaded.py (class GameDBThreaded) with a few cross
references to zombie_game4.py (Agent.take_damage, Human.attack,
Human.assign_role, Doctor.use_special_ability).  Python dicts keyed by
agent_id are modelled as lists of agents carrying their own agentId;
database rows are modelled as plain structures; random draws
(random.random, random.randint) are passed in explicitly as parameters;
float arithmetic on the small decimal constants of the source
(0.5, 0.6, 0.7, 1.5, 2.0 and so on) is modelled exactly with rationals,
and int() truncation of the nonnegative quantities involved is the floor.
-/

namespace ZombieGame

inductive AgentType where
  | human
  | zombie
deriving DecidableEq

inductive RoleName where
  | doctor
  | hunter
  | speedZombie
  | tankZombie
deriving DecidableEq

inductive ItemType where
  | medKit
  | sword
deriving DecidableEq

/-- The role_data JSON dict of an agent row: each key is optional, and the
source reads keys with dict.get and a default. -/
structure RoleData where
  healCharges : Option Int := none
  healAmount : Option ℚ := none
  movementRange : Option ℚ := none
  attackMultiplier : Option ℚ := none
  criticalChance : Option ℚ := none
deriving DecidableEq

/-- An agent row of the agents table, as handled by GameDBThreaded. -/
@[ext] structure Agent where
  agentId : Nat
  agentType : AgentType
  health : Int
  maxHealth : Int
  attackPower : Int
  baseAttackPower : Int
  isAlive : Bool
  x : Int
  y : Int
  roleName : Option RoleName
  roleData : RoleData
deriving DecidableEq

/-- An item row of the items table. -/
@[ext] structure Item where
  itemId : Nat
  itemType : ItemType
  x : Int
  y : Int
  pickedUp : Bool
  pickedBy : Option Nat
deriving DecidableEq

/-- A combat dict as produced by GameDBThreaded.calculate_attack. -/
structure CombatResult where
  attackerId : Nat
  targetId : Nat
  damage : Int
  wasCritical : Bool
deriving DecidableEq

/-- A combat_log row as written by DatabaseManager.log_combat. -/
structure LogEntry where
  roundNum : Nat
  attackerId : Nat
  targetId : Nat
  damage : Int
  wasCritical : Bool
deriving DecidableEq

/-- The read-only game_state dict handed to the worker threads. -/
structure Snapshot where
  humans : List Agent
  zombies : List Agent
  items : List Item
deriving DecidableEq

/-- What one worker thread contributes: its returned agent update plus the
entries it appended to the shared combat_buffer and item_pickups lists. -/
structure WorkerOut where
  update : Agent
  buffered : List (Option CombatResult)
  pickups : List (Nat × Nat)
deriving DecidableEq

/-- Squared Euclidean distance; the source compares
math.sqrt((x1-x2)**2 + (y1-y2)**2) against constants, and comparing the
squares is an exact rendering of those comparisons. -/
def distSq (x1 y1 x2 y2 : Int) : Int :=
  (x1 - x2) * (x1 - x2) + (y1 - y2) * (y1 - y2)

/-- GameDBThreaded.find_nearest on agents: Python min keeps the first
element attaining the minimal key. -/
def findNearestAgent (ax ay : Int) : List Agent → Option Agent
  | [] => none
  | t :: ts => some (ts.foldl (fun best cand =>
      if distSq ax ay cand.x cand.y < distSq ax ay best.x best.y then cand else best) t)

/-- GameDBThreaded.find_nearest on items. -/
def findNearestItem (ax ay : Int) : List Item → Option Item
  | [] => none
  | t :: ts => some (ts.foldl (fun best cand =>
      if distSq ax ay cand.x cand.y < distSq ax ay best.x best.y then cand else best) t)

/-- The random draws consumed by one call of calculate_attack:
missRoll for the zombie 20 percent miss check, dmgDraw for
random.randint(int(attack_power*0.5), attack_power), critRoll for the
Hunter 30 percent critical check. -/
structure AttackRng where
  missRoll : ℚ
  dmgDraw : Int
  critRoll : ℚ
deriving DecidableEq

/-- Lower bound of the uniform integer draw in
GameDBThreaded.calculate_attack: int(attacker.attack_power * 0.5). -/
def calcLo (a : Agent) : Int := ⌊(a.attackPower : ℚ) * (1 / 2)⌋

/-- The support of the random.randint call in calculate_attack: the base
damage draw is valid exactly when it lies in this integer range. -/
def validDraw (a : Agent) (d : Int) : Prop := calcLo a ≤ d ∧ d ≤ a.attackPower

/-- GameDBThreaded.calculate_attack, lines 193 to 227: zombie miss check,
uniform base damage draw, role attack multiplier, Hunter critical. -/
def calculate_attack (attacker target : Agent) (rng : AttackRng) : Option CombatResult :=
  if attacker.agentType = AgentType.zombie ∧ rng.missRoll < (1 / 5 : ℚ) then
    none
  else
    let am0 := attacker.roleData.attackMultiplier.getD 1
    let isCrit := attacker.roleName = some RoleName.hunter ∧ rng.critRoll < (3 / 10 : ℚ)
    let am := if isCrit then am0 * (3 / 2) else am0
    let damage := ⌊(rng.dmgDraw : ℚ) * am⌋
    some ⟨attacker.agentId, target.agentId, damage, decide isCrit⟩

/-- The damage application inlined in GameDBThreaded.apply_combat_results
(identical to Agent.take_damage of zombie_game4.py): subtract, clamp at 0,
mark dead on reaching 0. -/
def take_damage (a : Agent) (damage : Int) : Agent :=
  let h := a.health - damage
  if h ≤ 0 then { a with health := 0, isAlive := false } else { a with health := h }

/-- GameDBThreaded.apply_combat_results, lines 229 to 248: walk the combat
buffer in order; skip None entries (zombie misses); damage the target if
present in the dict; log every non-None combat via db.log_combat. -/
def apply_combat_results (rn : Nat) : List Agent → List (Option CombatResult) → List Agent × List LogEntry
  | agents, [] => (agents, [])
  | agents, none :: buf => apply_combat_results rn agents buf
  | agents, some c :: buf =>
      let agents2 := agents.map (fun a => if a.agentId = c.targetId then take_damage a c.damage else a)
      let r := apply_combat_results rn agents2 buf
      (r.1, ⟨rn, c.attackerId, c.targetId, c.damage, c.wasCritical⟩ :: r.2)

/-- GameDBThreaded.assign_role_to_human, lines 250 to 260: the source
replaces role_data with a fresh dict in both branches. -/
def assign_role_to_human (human : Agent) (item : Item) : Agent :=
  match item.itemType with
  | ItemType.medKit =>
      { human with roleName := some RoleName.doctor,
                   roleData := { healCharges := some 3, healAmount := some (1 / 2) } }
  | ItemType.sword =>
      { human with roleName := some RoleName.hunter,
                   attackPower := ⌊(human.baseAttackPower : ℚ) * (3 / 2)⌋,
                   roleData := { attackMultiplier := some 2, criticalChance := some (3 / 10) } }

/-- The Doctor branch of GameDBThreaded.process_human_turn, lines 116 to
124 (same logic as Doctor.use_special_ability of zombie_game4.py):
heal_charges defaults to 3 via dict.get, the heal fires when charges are
positive and health is strictly below max_health * 0.6, heals
int(max_health * 0.5) clamped at max_health, and decrements the charge. -/
def doctorHealStep (a : Agent) : Agent :=
  if a.roleName = some RoleName.doctor then
    let hc := a.roleData.healCharges.getD 3
    if 0 < hc ∧ (a.health : ℚ) < (a.maxHealth : ℚ) * (3 / 5) then
      { a with health := min (a.health + ⌊(a.maxHealth : ℚ) * (1 / 2)⌋) a.maxHealth,
               roleData := { a.roleData with healCharges := some (hc - 1) } }
    else a
  else a

/-- The single-axis step of the movement code:
1 if target is greater, -1 if smaller, else 0. -/
def stepToward (cur tgt : Int) : Int :=
  if tgt > cur then 1 else if tgt < cur then -1 else 0

/-- The per-step clamp max(0, min(grid_size - 1, v)) used after every
movement step. -/
def clampCoord (g v : Int) : Int := max 0 (min (g - 1) v)

/-- The multi-step movement loop of process_zombie_turn: the direction is
fixed before the loop and each step is clamped individually. -/
def moveSteps (g dx dy : Int) : Nat → Int × Int → Int × Int
  | 0, p => p
  | n + 1, p => moveSteps g dx dy n (clampCoord g (p.1 + dx), clampCoord g (p.2 + dy))

/-- The item branch of GameDBThreaded.process_human_turn, lines 126 to
137: a role-less human looks at the nearest available item and picks it up
when within Euclidean distance 1.5 (squared distance at most 2). -/
def pickupCandidate (hu : Agent) (items : List Item) : Option Item :=
  if hu.roleName = none then
    match findNearestItem hu.x hu.y items with
    | some it => if distSq hu.x hu.y it.x it.y ≤ 2 then some it else none
    | none => none
  else none

/-- The combat-or-move tail of process_human_turn, lines 139 to 157. -/
def humanCombatPhase (g : Int) (hu : Agent) (zombies : List Agent) (rng : AttackRng) : WorkerOut :=
  match findNearestAgent hu.x hu.y zombies with
  | none => ⟨hu, [], []⟩
  | some z =>
      if distSq hu.x hu.y z.x z.y ≤ 2 then
        ⟨hu, [calculate_attack hu z rng], []⟩
      else
        ⟨{ hu with x := clampCoord g (hu.x + stepToward hu.x z.x),
                   y := clampCoord g (hu.y + stepToward hu.y z.y) }, [], []⟩

/-- GameDBThreaded.process_human_turn, lines 110 to 157: Doctor self-heal
on the deep copy, then the pickup branch (which returns early), then
attack or move toward the nearest zombie. -/
def process_human_turn (g : Int) (human : Agent) (snap : Snapshot) (rng : AttackRng) : WorkerOut :=
  let hu := doctorHealStep human
  match pickupCandidate hu snap.items with
  | some it =>
      let hu2 := assign_role_to_human hu it
      ⟨hu2, [], [(it.itemId, hu2.agentId)]⟩
  | none => humanCombatPhase g hu snap.zombies rng

/-- The random draws consumed by one call of process_zombie_turn. -/
structure ZombieRng where
  attackRng : AttackRng
  moveRoll : ℚ
deriving DecidableEq

/-- GameDBThreaded.process_zombie_turn, lines 159 to 191: return the copy
unchanged when no humans exist; attack within range; otherwise move with
movement_range whole steps (clamped individually), or a Bernoulli single
step for a fractional movement_range. -/
def process_zombie_turn (g : Int) (zombie : Agent) (snap : Snapshot) (rng : ZombieRng) : WorkerOut :=
  match findNearestAgent zombie.x zombie.y snap.humans with
  | none => ⟨zombie, [], []⟩
  | some hTgt =>
      if distSq zombie.x zombie.y hTgt.x hTgt.y ≤ 2 then
        ⟨zombie, [calculate_attack zombie hTgt rng.attackRng], []⟩
      else
        let mr := zombie.roleData.movementRange.getD 1
        let dx := stepToward zombie.x hTgt.x
        let dy := stepToward zombie.y hTgt.y
        if 1 ≤ mr then
          let p := moveSteps g dx dy ⌊mr⌋.toNat (zombie.x, zombie.y)
          ⟨{ zombie with x := p.1, y := p.2 }, [], []⟩
        else if rng.moveRoll < mr then
          ⟨{ zombie with x := clampCoord g (zombie.x + dx), y := clampCoord g (zombie.y + dy) }, [], []⟩
        else ⟨zombie, [], []⟩

/-- DatabaseManager.pick_up_item: UPDATE items SET picked_up = TRUE,
picked_by_agent_id = agent WHERE item_id = item; the owner column is
overwritten unconditionally. -/
def pick_up_item (items : List Item) (itemId agentId : Nat) : List Item :=
  items.map (fun it =>
    if it.itemId = itemId then { it with pickedUp := true, pickedBy := some agentId } else it)

/-- The pickup loop of GameDBThreaded.run_round, lines 322 to 324. -/
def processPickups (items : List Item) (pk : List (Nat × Nat)) : List Item :=
  pk.foldl (fun its p => pick_up_item its p.1 p.2) items

/-- The result-collection loops of GameDBThreaded.run_round, lines 301 to
317: each task either completed with a WorkerOut or raised (modelled as
none, matching the try/except that records the error and skips the
agent).  Completed tasks contribute their update keyed by agent_id and
their combat-buffer and pickup entries; failed tasks contribute nothing. -/
def collectResults : List (Nat × Option WorkerOut) →
    List (Nat × Agent) × List (Option CombatResult) × List (Nat × Nat)
  | [] => ([], [], [])
  | (_, none) :: ts => collectResults ts
  | (i, some w) :: ts =>
      let r := collectResults ts
      ((i, w.update) :: r.1, w.buffered ++ r.2.1, w.pickups ++ r.2.2)

/-- The observable outcome of one round: the merged agent states, the
combat log written this round, the item table after pickups, and the new
round number. -/
structure RoundResult where
  agents : List Agent
  log : List LogEntry
  items : List Item
  roundNum : Nat
deriving DecidableEq

/-- The merge tail of GameDBThreaded.run_round, lines 262 to 334: the
round counter is incremented at entry, worker results are collected,
apply_combat_results runs over the buffered combats, then the pickup loop
runs, and the updated agents are flushed. -/
def run_round_model (rn : Nat) (tasks : List (Nat × Option WorkerOut)) (items : List Item) : RoundResult :=
  let col := collectResults tasks
  let ar := apply_combat_results (rn + 1) (col.1.map Prod.snd) col.2.1
  { agents := ar.1, log := ar.2, items := processPickups items col.2.2, roundNum := rn + 1 }

/-- Lower bound of the uniform base damage draw in Human.attack of
zombie_game4.py, line 234: random.randint(int(attack_power * 0.7),
attack_power). -/
def human_attack_draw_lo (attackPower : Int) : Int := ⌊(attackPower : ℚ) * (7 / 10)⌋

/-- Upper bound of the same draw. -/
def human_attack_draw_hi (attackPower : Int) : Int := attackPower

/-- Sequential application of a list of damages to one agent, used to
characterise what apply_combat_results does to each dict entry. -/
def applyDamages (a : Agent) (ds : List Int) : Agent := ds.foldl take_damage a

/-- The damages aimed at one target id inside a combat buffer, in buffer
order. -/
def damagesFor (tid : Nat) (buf : List (Option CombatResult)) : List Int :=
  ((buf.filterMap id).filter (fun c => c.targetId == tid)).map (fun c => c.damage)

theorem take_damage_eq_update (a : Agent) (d : Int) :
    take_damage a d =
      { a with health := if a.health - d ≤ 0 then 0 else a.health - d,
               isAlive := if a.health - d ≤ 0 then false else a.isAlive } := by
  unfold take_damage
  split_ifs with h <;> simp [h]

theorem applyDamages_frame (ds : List Int) (a : Agent) :
    (applyDamages a ds).agentId = a.agentId ∧ (applyDamages a ds).agentType = a.agentType ∧
    (applyDamages a ds).maxHealth = a.maxHealth ∧ (applyDamages a ds).attackPower = a.attackPower ∧
    (applyDamages a ds).baseAttackPower = a.baseAttackPower ∧ (applyDamages a ds).x = a.x ∧
    (applyDamages a ds).y = a.y ∧ (applyDamages a ds).roleName = a.roleName ∧
    (applyDamages a ds).roleData = a.roleData := by
  induction ds generalizing a with
  | nil => simp [applyDamages]
  | cons d ds ih =>
    have h2 := ih (take_damage a d)
    have hstep : applyDamages a (d :: ds) = applyDamages (take_damage a d) ds := rfl
    rw [hstep]
    simpa [take_damage_eq_update] using h2

theorem applyDamages_spec (ds : List Int) (a : Agent) (hd : ∀ d ∈ ds, 0 ≤ d) :
    (applyDamages a ds).health = (if ds ≠ [] ∧ a.health ≤ ds.sum then 0 else a.health - ds.sum) ∧
    (applyDamages a ds).isAlive = (if ds ≠ [] ∧ a.health ≤ ds.sum then false else a.isAlive) := by
  induction ds generalizing a with
  | nil => simp [applyDamages]
  | cons d ds ih =>
    have hd0 : 0 ≤ d := hd d (by simp)
    have hds : ∀ x ∈ ds, 0 ≤ x := fun x hx => hd x (by simp [hx])
    have hsum : 0 ≤ ds.sum := List.sum_nonneg hds
    have hstep : applyDamages a (d :: ds) = applyDamages (take_damage a d) ds := rfl
    obtain ⟨ih1, ih2⟩ := ih (take_damage a d) hds
    rw [hstep, ih1, ih2]
    by_cases hne : ds = []
    · subst hne
      simp only [take_damage_eq_update, List.sum_cons, List.sum_nil, ne_eq,
        not_true_eq_false, false_and, if_false, List.cons_ne_nil, not_false_eq_true, true_and]
      constructor
      · split_ifs <;> omega
      · split_ifs <;> first | rfl | omega
    · simp only [take_damage_eq_update, List.sum_cons, ne_eq, hne, not_false_eq_true, true_and,
        List.cons_ne_nil]
      constructor
      · split_ifs <;> omega
      · split_ifs <;> first | rfl | omega

theorem apply_combat_results_fst (rn : Nat) (buf : List (Option CombatResult)) (agents : List Agent) :
    (apply_combat_results rn agents buf).1 =
      agents.map (fun a => applyDamages a (damagesFor a.agentId buf)) := by
  induction buf generalizing agents with
  | nil => simp [apply_combat_results, damagesFor, applyDamages]
  | cons c buf ih =>
    cases c with
    | none =>
      rw [apply_combat_results, ih]
      simp [damagesFor]
    | some c =>
      rw [apply_combat_results]
      simp only []
      rw [ih, List.map_map]
      apply List.map_congr_left
      intro a _
      simp only [Function.comp_apply]
      by_cases h : a.agentId = c.targetId
      · have hid : (take_damage a c.damage).agentId = a.agentId := by
          simp [take_damage_eq_update]
        rw [if_pos h, hid, h]
        have hcons : damagesFor c.targetId (some c :: buf) = c.damage :: damagesFor c.targetId buf := by
          simp [damagesFor]
        rw [hcons]
        rfl
      · have hbeq : (c.targetId == a.agentId) = false := by
          simp [Ne.symm h]
        rw [if_neg h]
        have hskip : damagesFor a.agentId (some c :: buf) = damagesFor a.agentId buf := by
          simp [damagesFor, hbeq]
        rw [hskip]

theorem apply_combat_results_snd (rn : Nat) (buf : List (Option CombatResult)) (agents : List Agent) :
    (apply_combat_results rn agents buf).2 =
      (buf.filterMap id).map
        (fun c => LogEntry.mk rn c.attackerId c.targetId c.damage c.wasCritical) := by
  induction buf generalizing agents with
  | nil => simp [apply_combat_results]
  | cons c buf ih =>
    cases c with
    | none => rw [apply_combat_results]; simpa using ih agents
    | some c =>
      rw [apply_combat_results]
      simpa using ih _

theorem collectResults_drop_failed (t1 t2 : List (Nat × Option WorkerOut)) (f : Nat) :
    collectResults (t1 ++ (f, none) :: t2) = collectResults (t1 ++ t2) := by
  induction t1 with
  | nil => rfl
  | cons t t1 ih =>
    obtain ⟨i, w⟩ := t
    cases w <;> simp [collectResults, ih]

theorem collectResults_mem_update (ts : List (Nat × Option WorkerOut)) (i : Nat) (w : WorkerOut)
    (h : (i, some w) ∈ ts) : (i, w.update) ∈ (collectResults ts).1 := by
  induction ts with
  | nil => simp at h
  | cons t ts ih =>
    obtain ⟨j, wj⟩ := t
    rcases List.mem_cons.mp h with h1 | h1
    · obtain ⟨h2, h3⟩ := Prod.mk.injEq .. ▸ h1
      cases h3
      simp [collectResults, h2.symm]
    · cases wj <;> simp [collectResults, ih h1]

theorem collectResults_id_mem (ts : List (Nat × Option WorkerOut)) (i : Nat)
    (h : i ∈ (collectResults ts).1.map Prod.fst) : ∃ w, (i, some w) ∈ ts := by
  induction ts with
  | nil => simp [collectResults] at h
  | cons t ts ih =>
    obtain ⟨j, wj⟩ := t
    cases wj with
    | none =>
      obtain ⟨w, hw⟩ := ih (by simpa [collectResults] using h)
      exact ⟨w, by simp [hw]⟩
    | some w0 =>
      simp only [collectResults, List.map_cons, List.mem_cons] at h
      rcases h with h | h
      · exact ⟨w0, by simp [h]⟩
      · obtain ⟨w, hw⟩ := ih h
        exact ⟨w, by simp [hw]⟩

/-- Per-item view of the pickup loop. -/
def pickupFold (pk : List (Nat × Nat)) (it : Item) : Item :=
  pk.foldl
    (fun it2 p => if it2.itemId = p.1 then { it2 with pickedUp := true, pickedBy := some p.2 } else it2)
    it

theorem processPickups_eq_map (pk : List (Nat × Nat)) (items : List Item) :
    processPickups items pk = items.map (pickupFold pk) := by
  induction pk generalizing items with
  | nil =>
    have h0 : pickupFold [] = id := rfl
    simp [processPickups, h0]
  | cons p pk ih =>
    have hstep : processPickups items (p :: pk) = processPickups (pick_up_item items p.1 p.2) pk := rfl
    rw [hstep, ih, pick_up_item, List.map_map]
    apply List.map_congr_left
    intro it _
    rfl

theorem pickupFold_mono (pk : List (Nat × Nat)) (it : Item) (h : it.pickedUp = true) :
    (pickupFold pk it).pickedUp = true := by
  induction pk generalizing it with
  | nil => simpa [pickupFold] using h
  | cons p pk ih =>
    have hstep : pickupFold (p :: pk) it =
        pickupFold pk (if it.itemId = p.1 then { it with pickedUp := true, pickedBy := some p.2 } else it) := rfl
    rw [hstep]
    split_ifs with hc
    · exact ih _ rfl
    · exact ih _ h

theorem doctorHealStep_frame (a : Agent) :
    (doctorHealStep a).agentId = a.agentId ∧ (doctorHealStep a).agentType = a.agentType ∧
    (doctorHealStep a).maxHealth = a.maxHealth ∧ (doctorHealStep a).attackPower = a.attackPower ∧
    (doctorHealStep a).baseAttackPower = a.baseAttackPower ∧ (doctorHealStep a).isAlive = a.isAlive ∧
    (doctorHealStep a).x = a.x ∧ (doctorHealStep a).y = a.y ∧
    (doctorHealStep a).roleName = a.roleName := by
  by_cases h1 : a.roleName = some RoleName.doctor
  · by_cases h2 : 0 < a.roleData.healCharges.getD 3 ∧ (a.health : ℚ) < (a.maxHealth : ℚ) * (3 / 5)
    · simp [doctorHealStep, h1, h2]
    · simp [doctorHealStep, h1, h2]
  · simp [doctorHealStep, h1]

theorem doctorHealStep_of_not_doctor (a : Agent) (h : a.roleName ≠ some RoleName.doctor) :
    doctorHealStep a = a := by
  simp [doctorHealStep, h]

theorem assign_role_frame (h : Agent) (it : Item) :
    (assign_role_to_human h it).agentId = h.agentId ∧
    (assign_role_to_human h it).agentType = h.agentType ∧
    (assign_role_to_human h it).health = h.health ∧
    (assign_role_to_human h it).maxHealth = h.maxHealth ∧
    (assign_role_to_human h it).baseAttackPower = h.baseAttackPower ∧
    (assign_role_to_human h it).isAlive = h.isAlive ∧
    (assign_role_to_human h it).x = h.x ∧ (assign_role_to_human h it).y = h.y := by
  unfold assign_role_to_human
  cases it.itemType <;> simp

/-- A fresh human as spawned by spawn_agents: HP 100/100, ATK 20, no role. -/
def humanA : Agent := ⟨1, AgentType.human, 100, 100, 20, 20, true, 0, 0, none, {}⟩

/-- A fresh zombie as spawned by spawn_agents: HP 80/80, ATK 15, no role. -/
def zombieA : Agent := ⟨2, AgentType.zombie, 80, 80, 15, 15, true, 0, 1, none, {}⟩

/-- A nearly dead zombie: 5 HP left, about to absorb two 8-damage hits. -/
def targetZ : Agent := ⟨3, AgentType.zombie, 5, 80, 15, 15, true, 5, 5, none, {}⟩

/-- The same zombie after being killed: clamped to 0 HP and not alive. -/
def deadZ : Agent := ⟨3, AgentType.zombie, 0, 80, 15, 15, false, 5, 5, none, {}⟩

/-- A buffered attack of agent 1 against agent 3 for 8 damage. -/
def atk1 : CombatResult := ⟨1, 3, 8, false⟩

/-- A buffered attack of agent 2 against agent 3 for 8 damage. -/
def atk2 : CombatResult := ⟨2, 3, 8, false⟩

theorem clampCoord_bounds (g v : Int) (hg : 1 ≤ g) :
    0 ≤ clampCoord g v ∧ clampCoord g v < g := by
  unfold clampCoord
  omega

theorem moveSteps_bounds (g dx dy : Int) (hg : 1 ≤ g) :
    ∀ (n : Nat) (p : Int × Int), 0 ≤ p.1 → p.1 < g → 0 ≤ p.2 → p.2 < g →
      0 ≤ (moveSteps g dx dy n p).1 ∧ (moveSteps g dx dy n p).1 < g ∧
      0 ≤ (moveSteps g dx dy n p).2 ∧ (moveSteps g dx dy n p).2 < g := by
  intro n
  induction n with
  | zero => intro p h1 h2 h3 h4; exact ⟨h1, h2, h3, h4⟩
  | succ n ih =>
    intro p _ _ _ _
    have hx := clampCoord_bounds g (p.1 + dx) hg
    have hy := clampCoord_bounds g (p.2 + dy) hg
    exact ih (clampCoord g (p.1 + dx), clampCoord g (p.2 + dy)) hx.1 hx.2 hy.1 hy.2

/-- C1 counterexample: the merge has no deterministic sort; it applies the
combat buffer in the order worker completion filled it, so the same two
attacks (by agents 1 and 2 on agent 3) arriving in the two possible
completion orders yield two different combat event logs, contradicting the
claimed order-independence of the event log. -/
theorem c1_counterexample :
    (apply_combat_results 1 [targetZ] [some atk1, some atk2]).2 ≠
      (apply_combat_results 1 [targetZ] [some atk2, some atk1]).2 := by
  decide

/-- C1 (amended): the merge applies buffered combat results in worker
completion order with no sorting, so the event log follows completion
order; the merged agent states however are identical for any two buffer
orders that are permutations of one another (the damages are nonnegative,
as produced by calculate_attack), so only the log, not the state, depends
on completion order. -/
theorem c1_theorem (rn : Nat) (agents : List Agent)
    (b1 b2 : List (Option CombatResult)) (hperm : b1.Perm b2)
    (hd : ∀ c : CombatResult, some c ∈ b1 → 0 ≤ c.damage) :
    (apply_combat_results rn agents b1).1 = (apply_combat_results rn agents b2).1 := by
  rw [apply_combat_results_fst, apply_combat_results_fst]
  apply List.map_congr_left
  intro a _
  have hpf : ((b1.filterMap id).filter (fun c => c.targetId == a.agentId)).Perm
      ((b2.filterMap id).filter (fun c => c.targetId == a.agentId)) :=
    (hperm.filterMap id).filter _
  have hpd : (damagesFor a.agentId b1).Perm (damagesFor a.agentId b2) := hpf.map _
  have hd1 : ∀ d ∈ damagesFor a.agentId b1, 0 ≤ d := by
    intro d hdm
    obtain ⟨c, hc, hcd⟩ := List.mem_map.mp hdm
    obtain ⟨oc, hoc, hoc2⟩ := List.mem_filterMap.mp (List.mem_filter.mp hc).1
    have hoc3 : oc = some c := hoc2
    subst hoc3
    subst hcd
    exact hd c hoc
  have hd2 : ∀ d ∈ damagesFor a.agentId b2, 0 ≤ d := fun d hdm =>
    hd1 d (hpd.mem_iff.mpr hdm)
  have hsum : (damagesFor a.agentId b1).sum = (damagesFor a.agentId b2).sum := hpd.sum_eq
  have hnil : damagesFor a.agentId b1 = [] ↔ damagesFor a.agentId b2 = [] := by
    constructor
    · intro h0
      have hpd2 := hpd
      rw [h0] at hpd2
      exact hpd2.symm.eq_nil
    · intro h0
      have hpd2 := hpd
      rw [h0] at hpd2
      exact hpd2.eq_nil
  obtain ⟨h1h, h1a⟩ := applyDamages_spec (damagesFor a.agentId b1) a hd1
  obtain ⟨h2h, h2a⟩ := applyDamages_spec (damagesFor a.agentId b2) a hd2
  obtain ⟨f1a, f1b, f1c, f1d, f1e, f1f, f1g, f1h, f1i⟩ :=
    applyDamages_frame (damagesFor a.agentId b1) a
  obtain ⟨f2a, f2b, f2c, f2d, f2e, f2f, f2g, f2h, f2i⟩ :=
    applyDamages_frame (damagesFor a.agentId b2) a
  apply Agent.ext
  · rw [f1a, f2a]
  · rw [f1b, f2b]
  · rw [h1h, h2h, hsum]
    exact if_congr (and_congr (not_congr hnil) Iff.rfl) rfl rfl
  · rw [f1c, f2c]
  · rw [f1d, f2d]
  · rw [f1e, f2e]
  · rw [h1a, h2a, hsum]
    exact if_congr (and_congr (not_congr hnil) Iff.rfl) rfl rfl
  · rw [f1f, f2f]
  · rw [f1g, f2g]
  · rw [f1h, f2h]
  · rw [f1i, f2i]

/-- C1 witness: the two completion orders of the same two attacks produce
the same merged agent state (even though the logs differ). -/
theorem c1_witness :
    (apply_combat_results 1 [targetZ] [some atk1, some atk2]).1 =
      (apply_combat_results 1 [targetZ] [some atk2, some atk1]).1 :=
  c1_theorem 1 [targetZ] [some atk1, some atk2] [some atk2, some atk1]
    (List.Perm.swap (some atk2) (some atk1) [])
    (by
      intro c hc
      simp only [List.mem_cons, List.mem_singleton, Option.some.injEq,
        List.not_mem_nil, or_false] at hc
      rcases hc with h | h <;> subst h <;> decide)

/-- C2 counterexample: after the first 8-damage attack kills the 5 HP
target, the second attack hits an already dead target, yet
apply_combat_results still logs it: the log holds both events, where the
claim requires the moot second event to be absent. -/
theorem c2_counterexample :
    (apply_combat_results 1 [targetZ] [some atk1]).1 = [deadZ] ∧
    (apply_combat_results 1 [targetZ] [some atk1, some atk2]).2 =
      [⟨1, 1, 3, 8, false⟩, ⟨1, 2, 3, 8, false⟩] ∧
    (apply_combat_results 1 [targetZ] [some atk1, some atk2]).2 ≠ [⟨1, 1, 3, 8, false⟩] := by
  refine ⟨by decide, by decide, by decide⟩

/-- C2 (amended): an attack applied to an already dead target (health 0,
alive flag false) leaves the target state unchanged, but the attack is
still logged: apply_combat_results writes one combat_log row for every
non-miss combat in the buffer, dead target or not. -/
theorem c2_theorem (rn : Nat) (agents : List Agent)
    (buf : List (Option CombatResult)) (a : Agent) (d : Int)
    (hd : 0 ≤ d) (hh : a.health = 0) (hal : a.isAlive = false) :
    take_damage a d = a ∧
    (apply_combat_results rn agents buf).2 =
      (buf.filterMap id).map
        (fun c => LogEntry.mk rn c.attackerId c.targetId c.damage c.wasCritical) := by
  constructor
  · have hcond : a.health - d ≤ 0 := by omega
    rw [take_damage_eq_update, if_pos hcond, if_pos hcond]
    apply Agent.ext <;> simp [hh, hal]
  · exact apply_combat_results_snd rn buf agents

/-- C2 witness: hitting the dead zombie again changes nothing, and the
hit is nevertheless logged. -/
theorem c2_witness :
    take_damage deadZ 8 = deadZ ∧
    (apply_combat_results 1 [deadZ] [some atk2]).2 = [⟨1, 2, 3, 8, false⟩] := by
  have h := c2_theorem 1 [deadZ] [some atk2] deadZ 8 (by decide) (by decide) (by decide)
  exact ⟨h.1, h.2.trans (by decide)⟩

theorem process_human_turn_eq_some (g : Int) (human : Agent) (snap : Snapshot) (rng : AttackRng)
    (it : Item) (h : pickupCandidate (doctorHealStep human) snap.items = some it) :
    process_human_turn g human snap rng =
      ⟨assign_role_to_human (doctorHealStep human) it, [],
       [(it.itemId, (assign_role_to_human (doctorHealStep human) it).agentId)]⟩ := by
  simp only [process_human_turn, h]

theorem process_human_turn_eq_none (g : Int) (human : Agent) (snap : Snapshot) (rng : AttackRng)
    (h : pickupCandidate (doctorHealStep human) snap.items = none) :
    process_human_turn g human snap rng = humanCombatPhase g (doctorHealStep human) snap.zombies rng := by
  simp only [process_human_turn, h]

theorem humanCombatPhase_eq_none (g : Int) (hu : Agent) (zombies : List Agent) (rng : AttackRng)
    (h : findNearestAgent hu.x hu.y zombies = none) :
    humanCombatPhase g hu zombies rng = ⟨hu, [], []⟩ := by
  unfold humanCombatPhase
  rw [h]

theorem humanCombatPhase_eq_some (g : Int) (hu : Agent) (zombies : List Agent) (rng : AttackRng)
    (z : Agent) (h : findNearestAgent hu.x hu.y zombies = some z) :
    humanCombatPhase g hu zombies rng =
      if distSq hu.x hu.y z.x z.y ≤ 2 then ⟨hu, [calculate_attack hu z rng], []⟩
      else ⟨{ hu with x := clampCoord g (hu.x + stepToward hu.x z.x),
                      y := clampCoord g (hu.y + stepToward hu.y z.y) }, [], []⟩ := by
  unfold humanCombatPhase
  rw [h]

theorem process_zombie_turn_eq_none (g : Int) (zombie : Agent) (snap : Snapshot) (rng : ZombieRng)
    (h : findNearestAgent zombie.x zombie.y snap.humans = none) :
    process_zombie_turn g zombie snap rng = ⟨zombie, [], []⟩ := by
  unfold process_zombie_turn
  rw [h]

theorem process_zombie_turn_eq_some (g : Int) (zombie : Agent) (snap : Snapshot) (rng : ZombieRng)
    (hTgt : Agent) (h : findNearestAgent zombie.x zombie.y snap.humans = some hTgt) :
    process_zombie_turn g zombie snap rng =
      if distSq zombie.x zombie.y hTgt.x hTgt.y ≤ 2 then
        ⟨zombie, [calculate_attack zombie hTgt rng.attackRng], []⟩
      else if 1 ≤ zombie.roleData.movementRange.getD 1 then
        ⟨{ zombie with
            x := (moveSteps g (stepToward zombie.x hTgt.x) (stepToward zombie.y hTgt.y)
                  ⌊zombie.roleData.movementRange.getD 1⌋.toNat (zombie.x, zombie.y)).1,
            y := (moveSteps g (stepToward zombie.x hTgt.x) (stepToward zombie.y hTgt.y)
                  ⌊zombie.roleData.movementRange.getD 1⌋.toNat (zombie.x, zombie.y)).2 }, [], []⟩
      else if rng.moveRoll < zombie.roleData.movementRange.getD 1 then
        ⟨{ zombie with x := clampCoord g (zombie.x + stepToward zombie.x hTgt.x),
                       y := clampCoord g (zombie.y + stepToward zombie.y hTgt.y) }, [], []⟩
      else ⟨zombie, [], []⟩ := by
  unfold process_zombie_turn
  rw [h]

theorem pickupCandidate_roleName (hu : Agent) (items : List Item) (it : Item)
    (h : pickupCandidate hu items = some it) : hu.roleName = none := by
  by_cases hr : hu.roleName = none
  · exact hr
  · rw [pickupCandidate, if_neg hr] at h
    exact Option.noConfusion h

/-- The sword item used in the shared-pickup scenario. -/
def swordIt : Item := ⟨1, ItemType.sword, 0, 1, false, none⟩

/-- A MedKit item. -/
def medkitIt : Item := ⟨2, ItemType.medKit, 3, 3, false, none⟩

/-- First role-less human adjacent to the sword. -/
def human101 : Agent := ⟨101, AgentType.human, 100, 100, 20, 20, true, 0, 0, none, {}⟩

/-- Second role-less human, also adjacent to the same sword. -/
def human102 : Agent := ⟨102, AgentType.human, 100, 100, 20, 20, true, 1, 1, none, {}⟩

/-- Round snapshot in which both humans can reach the single sword. -/
def snapC3 : Snapshot := ⟨[human101, human102], [], [swordIt]⟩

/-- Arbitrary random draws (irrelevant to the pickup branch). -/
def dummyRng : AttackRng := ⟨1, 10, 1⟩

/-- C3 counterexample: both role-less humans within range of the one sword
acquire the Hunter role in the same round and both pickup intents are
buffered; the pickup loop then records the LAST agent in buffer order
(102) as owner, not the first in id order (101), so it is not the case
that only the first agent in sort order succeeds. -/
theorem c3_counterexample :
    (process_human_turn 20 human101 snapC3 dummyRng).update.roleName = some RoleName.hunter ∧
    (process_human_turn 20 human102 snapC3 dummyRng).update.roleName = some RoleName.hunter ∧
    (process_human_turn 20 human101 snapC3 dummyRng).pickups = [(1, 101)] ∧
    (process_human_turn 20 human102 snapC3 dummyRng).pickups = [(1, 102)] ∧
    processPickups [swordIt] [(1, 101), (1, 102)] =
      [⟨1, ItemType.sword, 0, 1, true, some 102⟩] ∧
    some 102 ≠ some (101 : Nat) := by
  exact ⟨rfl, rfl, rfl, rfl, by decide, by decide⟩

/-- C3 (amended): every role-less human within range of its nearest item
acquires the item role this round (there is no conflict resolution between
workers), and the pickup loop marks the item picked with the owner column
overwritten by each pickup in buffer order, so the recorded owner is the
last pickup applied; the pickedUp flag, once true, is never reset by the
pickup loop, and the owner column holds at most one agent at a time. -/
theorem c3_theorem (g : Int) (h : Agent) (snap : Snapshot) (rng : AttackRng) (it : Item)
    (hr : h.roleName = none) (hc : pickupCandidate h snap.items = some it)
    (items : List Item) (pk : List (Nat × Nat)) (it2 : Item) :
    (process_human_turn g h snap rng).update = assign_role_to_human h it ∧
    (process_human_turn g h snap rng).update.roleName ≠ none ∧
    (process_human_turn g h snap rng).pickups = [(it.itemId, h.agentId)] ∧
    processPickups items pk = items.map (pickupFold pk) ∧
    (it2.pickedUp = true → (pickupFold pk it2).pickedUp = true) := by
  have hheal : doctorHealStep h = h := doctorHealStep_of_not_doctor h (by simp [hr])
  have hc2 : pickupCandidate (doctorHealStep h) snap.items = some it := by
    rw [hheal]; exact hc
  rw [process_human_turn_eq_some g h snap rng it hc2, hheal]
  obtain ⟨hid, -, -, -, -, -, -, -⟩ := assign_role_frame h it
  have hrn : (assign_role_to_human h it).roleName ≠ none := by
    unfold assign_role_to_human
    cases it.itemType <;> simp
  exact ⟨rfl, hrn, by rw [hid], processPickups_eq_map pk items, pickupFold_mono pk it2⟩

/-- C3 witness: the first human picks the sword up, becomes Hunter, and
the pickup list and item table behave as the amended claim states. -/
theorem c3_witness :
    (process_human_turn 20 human101 snapC3 dummyRng).update = assign_role_to_human human101 swordIt ∧
    (process_human_turn 20 human101 snapC3 dummyRng).update.roleName ≠ none ∧
    (process_human_turn 20 human101 snapC3 dummyRng).pickups = [(swordIt.itemId, human101.agentId)] ∧
    processPickups [swordIt] [(1, 101), (1, 102)] =
      [swordIt].map (pickupFold [(1, 101), (1, 102)]) ∧
    (swordIt.pickedUp = true → (pickupFold [(1, 101), (1, 102)] swordIt).pickedUp = true) :=
  c3_theorem 20 human101 snapC3 dummyRng swordIt rfl rfl [swordIt] [(1, 101), (1, 102)] swordIt

/-- C4 counterexample: in the threaded engine a Human with attack power 20
may legitimately draw a base damage of 10, because calculate_attack draws
from [int(0.5 * attack_power), attack_power] for both factions; 10 is
below the claimed Human lower bound floor(0.7 * 20) = 14. -/
theorem c4_counterexample :
    validDraw humanA 10 ∧
    calculate_attack humanA zombieA ⟨1, 10, 1⟩ = some ⟨1, 2, 10, false⟩ ∧
    ¬ (14 ≤ (10 : Int)) := by
  have hlo : calcLo humanA = 10 := by
    show ⌊((20 : Int) : ℚ) * (1 / 2)⌋ = 10
    norm_num
  refine ⟨⟨le_of_eq hlo, by decide⟩, ?_, by norm_num⟩
  simp [calculate_attack, humanA, zombieA]

/-- C4 (amended): the threaded engine draws the base damage uniformly from
[int(0.5 * attack_power), attack_power] for both factions, so a Human with
ATK 20 draws from 10 to 20 (not 14 to 20) and a Zombie with ATK 15 draws
from 7 to 15; only the object-oriented variant (Human.attack in
zombie_game4.py) uses the 0.7 factor, giving 14 to 20 for ATK 20; for a
role-less Human the drawn value passes through unscaled as the damage. -/
theorem c4_theorem :
    (∀ (a t : Agent) (rng : AttackRng), a.agentType = AgentType.human → a.roleName = none →
        a.roleData.attackMultiplier = none →
        calculate_attack a t rng = some ⟨a.agentId, t.agentId, rng.dmgDraw, false⟩) ∧
    (∀ (a : Agent) (d : Int), a.attackPower = 20 → (validDraw a d ↔ 10 ≤ d ∧ d ≤ 20)) ∧
    (∀ (a : Agent) (d : Int), a.attackPower = 15 → (validDraw a d ↔ 7 ≤ d ∧ d ≤ 15)) ∧
    human_attack_draw_lo 20 = 14 ∧ human_attack_draw_hi 20 = 20 := by
  refine ⟨?_, ?_, ?_, ?_, rfl⟩
  · intro a t rng h1 h2 h3
    have hmiss : ¬ (a.agentType = AgentType.zombie ∧ rng.missRoll < (1 / 5 : ℚ)) := by
      simp [h1]
    have hfl : ⌊(rng.dmgDraw : ℚ) * 1⌋ = rng.dmgDraw := by
      rw [mul_one]
      exact Int.floor_intCast _
    unfold calculate_attack
    rw [if_neg hmiss]
    simp [h2, h3, hfl]
  · intro a d h
    unfold validDraw calcLo
    rw [h]
    have h10 : ⌊((20 : Int) : ℚ) * (1 / 2)⌋ = 10 := by norm_num
    rw [h10]
  · intro a d h
    unfold validDraw calcLo
    rw [h]
    have h7 : ⌊((15 : Int) : ℚ) * (1 / 2)⌋ = 7 := by norm_num
    rw [h7]
  · unfold human_attack_draw_lo
    norm_num

/-- C4 witness: for the roleless ATK 20 Human the threaded draw range is
exactly 10 to 20 and a non-missed attack passes the draw through. -/
theorem c4_witness :
    calculate_attack humanA zombieA ⟨1, 10, 1⟩ =
      some ⟨humanA.agentId, zombieA.agentId, (10 : Int), false⟩ ∧
    (validDraw humanA 10 ↔ 10 ≤ (10 : Int) ∧ (10 : Int) ≤ 20) := by
  exact ⟨c4_theorem.1 humanA zombieA ⟨1, 10, 1⟩ rfl rfl rfl,
    c4_theorem.2.1 humanA 10 rfl⟩

/-- The health and alive-flag invariant of the data model: health within
[0, maxHealth] and the alive flag tracking positive health. -/
def AgentInv (a : Agent) : Prop :=
  0 ≤ a.health ∧ a.health ≤ a.maxHealth ∧ (a.isAlive = true ↔ 0 < a.health)

theorem damagesFor_nonneg (tid : Nat) (buf : List (Option CombatResult))
    (hd : ∀ c : CombatResult, some c ∈ buf → 0 ≤ c.damage) :
    ∀ d ∈ damagesFor tid buf, 0 ≤ d := by
  intro d hdm
  obtain ⟨c, hc, hcd⟩ := List.mem_map.mp hdm
  obtain ⟨oc, hoc, hoc2⟩ := List.mem_filterMap.mp (List.mem_filter.mp hc).1
  have hoc3 : oc = some c := hoc2
  subst hoc3
  subst hcd
  exact hd c hoc

/-- C5: every agent satisfying the health and alive invariant still
satisfies it after the merge applies any buffer of nonnegative-damage
combat results (damage clamps health at 0 and flips the alive flag exactly
on reaching 0), and the Doctor self-heal of a living agent never lifts
health above maxHealth nor breaks the alive tracking. -/
theorem c5_theorem (rn : Nat) (agents : List Agent) (buf : List (Option CombatResult))
    (hinv : ∀ a ∈ agents, AgentInv a)
    (hd : ∀ c : CombatResult, some c ∈ buf → 0 ≤ c.damage) :
    (∀ a2 ∈ (apply_combat_results rn agents buf).1, AgentInv a2) ∧
    (∀ a : Agent, AgentInv a → a.isAlive = true → AgentInv (doctorHealStep a)) := by
  constructor
  · intro a2 ha2
    rw [apply_combat_results_fst] at ha2
    obtain ⟨a, ha, rfl⟩ := List.mem_map.mp ha2
    obtain ⟨i1, i2, i3⟩ := hinv a ha
    have hd1 := damagesFor_nonneg a.agentId buf hd
    have hsum : 0 ≤ (damagesFor a.agentId buf).sum := List.sum_nonneg hd1
    obtain ⟨hh, hal⟩ := applyDamages_spec (damagesFor a.agentId buf) a hd1
    obtain ⟨-, -, hmax, -, -, -, -, -, -⟩ := applyDamages_frame (damagesFor a.agentId buf) a
    unfold AgentInv
    rw [hh, hal, hmax]
    by_cases hc1 : damagesFor a.agentId buf = []
    · simp only [hc1, ne_eq, not_true_eq_false, false_and, if_false, List.sum_nil]
      exact ⟨by omega, by omega, by rw [show a.health - 0 = a.health by omega]; exact i3⟩
    · by_cases hc2 : a.health ≤ (damagesFor a.agentId buf).sum
      · simp only [ne_eq, hc1, not_false_eq_true, true_and, hc2, if_true]
        exact ⟨le_refl 0, by omega, by simp⟩
      · simp only [ne_eq, hc1, not_false_eq_true, true_and, hc2, if_false]
        refine ⟨by omega, by omega, ?_⟩
        rw [i3]
        constructor <;> intro <;> omega
  · intro a hinva halive
    obtain ⟨i1, i2, i3⟩ := hinva
    by_cases hdoc : a.roleName = some RoleName.doctor
    · by_cases hfire : 0 < a.roleData.healCharges.getD 3 ∧
          (a.health : ℚ) < (a.maxHealth : ℚ) * (3 / 5)
      · have heq : doctorHealStep a =
            { a with health := min (a.health + ⌊(a.maxHealth : ℚ) * (1 / 2)⌋) a.maxHealth,
                     roleData := { a.roleData with
                       healCharges := some (a.roleData.healCharges.getD 3 - 1) } } := by
          simp [doctorHealStep, hdoc, hfire]
        rw [heq]
        have h0 : 0 < a.health := i3.mp halive
        have hfloor : 0 ≤ ⌊(a.maxHealth : ℚ) * (1 / 2)⌋ := by
          apply Int.floor_nonneg.mpr
          have hm : (0 : ℚ) ≤ (a.maxHealth : ℚ) := by
            exact_mod_cast le_trans i1 i2
          linarith
        refine ⟨?_, ?_, ?_⟩
        · show 0 ≤ min (a.health + ⌊(a.maxHealth : ℚ) * (1 / 2)⌋) a.maxHealth
          omega
        · show min (a.health + ⌊(a.maxHealth : ℚ) * (1 / 2)⌋) a.maxHealth ≤ a.maxHealth
          omega
        · show a.isAlive = true ↔ 0 < min (a.health + ⌊(a.maxHealth : ℚ) * (1 / 2)⌋) a.maxHealth
          rw [halive]
          constructor
          · intro
            omega
          · intro
            rfl
      · have heq : doctorHealStep a = a := by
          simp [doctorHealStep, hdoc, hfire]
        rw [heq]
        exact ⟨i1, i2, i3⟩
    · rw [doctorHealStep_of_not_doctor a hdoc]
      exact ⟨i1, i2, i3⟩

/-- C5 witness: the nearly dead zombie keeps the invariant through a
lethal hit, and a healthy doctor keeps it through the self-heal. -/
theorem c5_witness :
    (∀ a2 ∈ (apply_combat_results 1 [targetZ] [some atk1]).1, AgentInv a2) ∧
    (∀ a : Agent, AgentInv a → a.isAlive = true → AgentInv (doctorHealStep a)) := by
  refine c5_theorem 1 [targetZ] [some atk1] ?_ ?_
  · intro a ha
    simp only [List.mem_singleton] at ha
    subst ha
    exact ⟨by decide, by decide, by decide⟩
  · intro c hc
    simp only [List.mem_singleton, Option.some.injEq] at hc
    subst hc
    decide

/-- Position inside the square grid of side g. -/
def inGrid (g : Int) (a : Agent) : Prop := 0 ≤ a.x ∧ a.x < g ∧ 0 ≤ a.y ∧ a.y < g

/-- C6: for a grid of size at least 1, any agent starting inside the grid
is still inside the grid after its worker turn — every movement step,
including each step of multi-step Speed Zombie movement, is clamped to the
grid individually — and the merge never changes positions. -/
theorem c6_theorem (g : Int) (hg : 1 ≤ g) :
    (∀ (z : Agent) (snap : Snapshot) (rng : ZombieRng), inGrid g z →
        inGrid g (process_zombie_turn g z snap rng).update) ∧
    (∀ (h : Agent) (snap : Snapshot) (rng : AttackRng), inGrid g h →
        inGrid g (process_human_turn g h snap rng).update) ∧
    (∀ (rn : Nat) (agents : List Agent) (buf : List (Option CombatResult)),
        (apply_combat_results rn agents buf).1.map (fun a => (a.x, a.y)) =
          agents.map (fun a => (a.x, a.y))) := by
  refine ⟨?_, ?_, ?_⟩
  · intro z snap rng hz
    cases hfn : findNearestAgent z.x z.y snap.humans with
    | none =>
      rw [process_zombie_turn_eq_none g z snap rng hfn]
      exact hz
    | some hTgt =>
      rw [process_zombie_turn_eq_some g z snap rng hTgt hfn]
      split_ifs with h1 h2 h3
      · exact hz
      · have hb := moveSteps_bounds g (stepToward z.x hTgt.x) (stepToward z.y hTgt.y) hg
          ⌊z.roleData.movementRange.getD 1⌋.toNat (z.x, z.y) hz.1 hz.2.1 hz.2.2.1 hz.2.2.2
        exact ⟨hb.1, hb.2.1, hb.2.2.1, hb.2.2.2⟩
      · have hx := clampCoord_bounds g (z.x + stepToward z.x hTgt.x) hg
        have hy := clampCoord_bounds g (z.y + stepToward z.y hTgt.y) hg
        exact ⟨hx.1, hx.2, hy.1, hy.2⟩
      · exact hz
  · intro h snap rng hh
    obtain ⟨-, -, -, -, -, -, hdx, hdy, -⟩ := doctorHealStep_frame h
    have hhu : inGrid g (doctorHealStep h) := by
      unfold inGrid
      rw [hdx, hdy]
      exact hh
    cases hpc : pickupCandidate (doctorHealStep h) snap.items with
    | some it =>
      rw [process_human_turn_eq_some g h snap rng it hpc]
      obtain ⟨-, -, -, -, -, -, hax, hay⟩ := assign_role_frame (doctorHealStep h) it
      unfold inGrid
      rw [hax, hay]
      exact hhu
    | none =>
      rw [process_human_turn_eq_none g h snap rng hpc]
      cases hfn : findNearestAgent (doctorHealStep h).x (doctorHealStep h).y snap.zombies with
      | none =>
        rw [humanCombatPhase_eq_none g (doctorHealStep h) snap.zombies rng hfn]
        exact hhu
      | some z =>
        rw [humanCombatPhase_eq_some g (doctorHealStep h) snap.zombies rng z hfn]
        split_ifs with h1
        · exact hhu
        · have hx := clampCoord_bounds g ((doctorHealStep h).x + stepToward (doctorHealStep h).x z.x) hg
          have hy := clampCoord_bounds g ((doctorHealStep h).y + stepToward (doctorHealStep h).y z.y) hg
          exact ⟨hx.1, hx.2, hy.1, hy.2⟩
  · intro rn agents buf
    rw [apply_combat_results_fst, List.map_map]
    apply List.map_congr_left
    intro a _
    obtain ⟨-, -, -, -, -, hx, hy, -, -⟩ := applyDamages_frame (damagesFor a.agentId buf) a
    simp only [Function.comp_apply]
    rw [hx, hy]

/-- A 1 versus 1 snapshot. -/
def snap1v1 : Snapshot := ⟨[humanA], [zombieA], []⟩

/-- Random draws for one zombie worker call. -/
def zrng : ZombieRng := ⟨⟨1, 10, 1⟩, 1⟩

/-- C6 witness: the concrete 1v1 agents stay inside the 20 by 20 grid
through their turns, and the merge leaves positions untouched. -/
theorem c6_witness :
    inGrid 20 (process_zombie_turn 20 zombieA snap1v1 zrng).update ∧
    inGrid 20 (process_human_turn 20 humanA snap1v1 ⟨1, 10, 1⟩).update ∧
    (apply_combat_results 1 [targetZ] [some atk1]).1.map (fun a => (a.x, a.y)) =
      [targetZ].map (fun a => (a.x, a.y)) := by
  have h := c6_theorem 20 (by norm_num)
  exact ⟨h.1 zombieA snap1v1 zrng (by exact ⟨by decide, by decide, by decide, by decide⟩),
    h.2.1 humanA snap1v1 ⟨1, 10, 1⟩ (by exact ⟨by decide, by decide, by decide, by decide⟩),
    h.2.2 1 [targetZ] [some atk1]⟩

/-- The firing condition of the Doctor branch: positive effective
heal charges (dict default 3) and health strictly below 0.6 maxHealth. -/
def doctorFires (a : Agent) : Prop :=
  0 < a.roleData.healCharges.getD 3 ∧ (a.health : ℚ) < (a.maxHealth : ℚ) * (3 / 5)

/-- C7: for an agent with the Doctor role the self-heal fires exactly when
health is strictly below 0.6 maxHealth and the effective heal charges are
positive; it then adds floor(0.5 maxHealth) clamped at maxHealth and
decrements the charge by one, and otherwise leaves the agent unchanged. -/
theorem c7_theorem (a : Agent) (hrole : a.roleName = some RoleName.doctor) :
    (doctorFires a →
      doctorHealStep a =
        { a with health := min (a.health + ⌊(a.maxHealth : ℚ) * (1 / 2)⌋) a.maxHealth,
                 roleData := { a.roleData with
                   healCharges := some (a.roleData.healCharges.getD 3 - 1) } }) ∧
    (¬ doctorFires a → doctorHealStep a = a) := by
  constructor
  · intro hf
    have hf2 : 0 < a.roleData.healCharges.getD 3 ∧
        (a.health : ℚ) < (a.maxHealth : ℚ) * (3 / 5) := hf
    simp [doctorHealStep, hrole, hf2]
  · intro hf
    have hf2 : ¬ (0 < a.roleData.healCharges.getD 3 ∧
        (a.health : ℚ) < (a.maxHealth : ℚ) * (3 / 5)) := hf
    simp [doctorHealStep, hrole, hf2]

/-- A wounded Doctor at 40 of 100 HP with all three charges. -/
def docAgent : Agent :=
  ⟨4, AgentType.human, 40, 100, 20, 20, true, 2, 2, some RoleName.doctor,
   { healCharges := some 3, healAmount := some (1 / 2) }⟩

/-- C7 witness: the wounded doctor heals and spends one charge. -/
theorem c7_witness :
    doctorHealStep docAgent =
      { docAgent with
        health := min (docAgent.health + ⌊(docAgent.maxHealth : ℚ) * (1 / 2)⌋) docAgent.maxHealth,
        roleData := { docAgent.roleData with
          healCharges := some (docAgent.roleData.healCharges.getD 3 - 1) } } :=
  (c7_theorem docAgent rfl).1 ⟨by decide, by norm_num [docAgent]⟩

/-- C8: a worker task that raises is isolated — dropping it from the task
list changes nothing about the round outcome computed from the remaining
tasks, the round counter still advances, the failed agent contributes no
update, and every other completed worker still contributes its update. -/
theorem c8_theorem (rn : Nat) (t1 t2 : List (Nat × Option WorkerOut)) (f : Nat)
    (items : List Item) (hf : ∀ w, (f, w) ∈ t1 ++ t2 → w = none) :
    run_round_model rn (t1 ++ (f, none) :: t2) items = run_round_model rn (t1 ++ t2) items ∧
    (run_round_model rn (t1 ++ (f, none) :: t2) items).roundNum = rn + 1 ∧
    f ∉ (collectResults (t1 ++ (f, none) :: t2)).1.map Prod.fst ∧
    (∀ (i : Nat) (w : WorkerOut), (i, some w) ∈ t1 ++ t2 →
      (i, w.update) ∈ (collectResults (t1 ++ (f, none) :: t2)).1) := by
  have hcol := collectResults_drop_failed t1 t2 f
  refine ⟨?_, rfl, ?_, ?_⟩
  · unfold run_round_model
    rw [hcol]
  · intro hmem
    rw [hcol] at hmem
    obtain ⟨w, hw⟩ := collectResults_id_mem (t1 ++ t2) f hmem
    exact Option.noConfusion (hf (some w) hw)
  · intro i w hi
    rw [hcol]
    exact collectResults_mem_update (t1 ++ t2) i w hi

/-- Result of a worker that returned the fresh human unchanged. -/
def w1out : WorkerOut := ⟨humanA, [], []⟩

/-- Result of a worker that returned the fresh zombie unchanged. -/
def w2out : WorkerOut := ⟨zombieA, [], []⟩

/-- C8 witness: a failing worker with id 7 between two successful workers
is dropped while the round proceeds over the two survivors. -/
theorem c8_witness :
    run_round_model 0 ([(1, some w1out)] ++ (7, none) :: [(2, some w2out)]) [] =
      run_round_model 0 ([(1, some w1out)] ++ [(2, some w2out)]) [] ∧
    (run_round_model 0 ([(1, some w1out)] ++ (7, none) :: [(2, some w2out)]) []).roundNum = 0 + 1 ∧
    7 ∉ (collectResults ([(1, some w1out)] ++ (7, none) :: [(2, some w2out)])).1.map Prod.fst ∧
    (∀ (i : Nat) (w : WorkerOut), (i, some w) ∈ [(1, some w1out)] ++ [(2, some w2out)] →
      (i, w.update) ∈ (collectResults ([(1, some w1out)] ++ (7, none) :: [(2, some w2out)])).1) :=
  c8_theorem 0 [(1, some w1out)] [(2, some w2out)] 7 [] (by intro w hw; simp at hw)

theorem calculate_attack_hunter (a t : Agent) (rng : AttackRng)
    (hty : a.agentType = AgentType.human) (hrn : a.roleName = some RoleName.hunter)
    (ham : a.roleData.attackMultiplier = some 2) :
    calculate_attack a t rng =
      some ⟨a.agentId, t.agentId,
            if rng.critRoll < (3 / 10 : ℚ) then 3 * rng.dmgDraw else 2 * rng.dmgDraw,
            decide (rng.critRoll < (3 / 10 : ℚ))⟩ := by
  have hmiss : ¬ (a.agentType = AgentType.zombie ∧ rng.missRoll < (1 / 5 : ℚ)) := by
    simp [hty]
  unfold calculate_attack
  rw [if_neg hmiss]
  by_cases hcr : rng.critRoll < (3 / 10 : ℚ)
  · have hfl : ⌊(rng.dmgDraw : ℚ) * (2 * (3 / 2))⌋ = 3 * rng.dmgDraw := by
      rw [show ((2 : ℚ) * (3 / 2)) = 3 by norm_num,
          show ((rng.dmgDraw : ℚ) * 3) = ((3 * rng.dmgDraw : ℤ) : ℚ) by push_cast; ring]
      exact Int.floor_intCast _
    simp [hrn, ham, hcr, hfl]
  · have hfl : ⌊(rng.dmgDraw : ℚ) * 2⌋ = 2 * rng.dmgDraw := by
      rw [show ((rng.dmgDraw : ℚ) * 2) = ((2 * rng.dmgDraw : ℤ) : ℚ) by push_cast; ring]
      exact Int.floor_intCast _
    simp [hrn, ham, hcr, hfl]

/-- C9: picking up a Sword installs the Hunter role, boosts attackPower to
floor(1.5 baseAttackPower) and stores attack multiplier 2; a subsequent
Hunter attack draws from the boosted power (not the base) and deals twice
the draw, three times on a critical; a MedKit leaves attackPower untouched
and stores three heal charges. -/
theorem c9_theorem (h : Agent) (swordItem medkitItem : Item) (t : Agent) (rng : AttackRng)
    (hs : swordItem.itemType = ItemType.sword) (hm : medkitItem.itemType = ItemType.medKit)
    (hty : h.agentType = AgentType.human) :
    (assign_role_to_human h swordItem).roleName = some RoleName.hunter ∧
    (assign_role_to_human h swordItem).attackPower = ⌊(h.baseAttackPower : ℚ) * (3 / 2)⌋ ∧
    (assign_role_to_human h swordItem).roleData.attackMultiplier = some 2 ∧
    (∀ d : Int, validDraw (assign_role_to_human h swordItem) d ↔
        (calcLo (assign_role_to_human h swordItem) ≤ d ∧
         d ≤ ⌊(h.baseAttackPower : ℚ) * (3 / 2)⌋)) ∧
    calculate_attack (assign_role_to_human h swordItem) t rng =
      some ⟨h.agentId, t.agentId,
            if rng.critRoll < (3 / 10 : ℚ) then 3 * rng.dmgDraw else 2 * rng.dmgDraw,
            decide (rng.critRoll < (3 / 10 : ℚ))⟩ ∧
    (assign_role_to_human h medkitItem).attackPower = h.attackPower ∧
    (assign_role_to_human h medkitItem).roleData.healCharges = some 3 ∧
    (assign_role_to_human h medkitItem).roleName = some RoleName.doctor := by
  have hsw : assign_role_to_human h swordItem =
      { h with roleName := some RoleName.hunter,
               attackPower := ⌊(h.baseAttackPower : ℚ) * (3 / 2)⌋,
               roleData := { attackMultiplier := some 2, criticalChance := some (3 / 10) } } := by
    unfold assign_role_to_human
    rw [hs]
  have hmk : assign_role_to_human h medkitItem =
      { h with roleName := some RoleName.doctor,
               roleData := { healCharges := some 3, healAmount := some (1 / 2) } } := by
    unfold assign_role_to_human
    rw [hm]
  obtain ⟨haid, haty, -, -, -, -, -, -⟩ := assign_role_frame h swordItem
  refine ⟨by rw [hsw], by rw [hsw], by rw [hsw], ?_, ?_, by rw [hmk], by rw [hmk], by rw [hmk]⟩
  · intro d
    unfold validDraw
    rw [hsw]
  · rw [calculate_attack_hunter (assign_role_to_human h swordItem) t rng
      (by rw [haty]; exact hty) (by rw [hsw]) (by rw [hsw]), haid]

/-- C9 witness: the fresh ATK 20 human becomes a Hunter with ATK 30 via
the sword, and the medkit instead grants Doctor with charges 3. -/
theorem c9_witness :
    (assign_role_to_human humanA swordIt).roleName = some RoleName.hunter ∧
    (assign_role_to_human humanA swordIt).attackPower =
      ⌊(humanA.baseAttackPower : ℚ) * (3 / 2)⌋ ∧
    (assign_role_to_human humanA swordIt).roleData.attackMultiplier = some 2 ∧
    (∀ d : Int, validDraw (assign_role_to_human humanA swordIt) d ↔
        (calcLo (assign_role_to_human humanA swordIt) ≤ d ∧
         d ≤ ⌊(humanA.baseAttackPower : ℚ) * (3 / 2)⌋)) ∧
    calculate_attack (assign_role_to_human humanA swordIt) zombieA dummyRng =
      some ⟨humanA.agentId, zombieA.agentId,
            if dummyRng.critRoll < (3 / 10 : ℚ) then 3 * dummyRng.dmgDraw
            else 2 * dummyRng.dmgDraw,
            decide (dummyRng.critRoll < (3 / 10 : ℚ))⟩ ∧
    (assign_role_to_human humanA medkitIt).attackPower = humanA.attackPower ∧
    (assign_role_to_human humanA medkitIt).roleData.healCharges = some 3 ∧
    (assign_role_to_human humanA medkitIt).roleName = some RoleName.doctor :=
  c9_theorem humanA swordIt medkitIt zombieA dummyRng rfl rfl rfl

theorem pickupCandidate_heal (h2 : Agent) (items : List Item) :
    pickupCandidate (doctorHealStep h2) items = pickupCandidate h2 items := by
  obtain ⟨-, -, -, -, -, -, hx, hy, hrn⟩ := doctorHealStep_frame h2
  unfold pickupCandidate
  rw [hx, hy, hrn]

/-- C10: with no living opposing agent in the snapshot, a zombie worker
returns its agent verbatim with no buffered combat; a human worker buffers
no combat, keeps its position, and its update is either just the self-heal
step or the item-pickup assignment of a role-less human. -/
theorem c10_theorem (g : Int) (snap : Snapshot) :
    (∀ (z : Agent) (rng : ZombieRng), snap.humans = [] →
        process_zombie_turn g z snap rng = ⟨z, [], []⟩) ∧
    (∀ (h : Agent) (rng : AttackRng), snap.zombies = [] →
        (process_human_turn g h snap rng).buffered = [] ∧
        (process_human_turn g h snap rng).update.x = h.x ∧
        (process_human_turn g h snap rng).update.y = h.y ∧
        ((process_human_turn g h snap rng).update = doctorHealStep h ∨
          (h.roleName = none ∧ ∃ it, pickupCandidate h snap.items = some it ∧
            (process_human_turn g h snap rng).update = assign_role_to_human h it))) := by
  constructor
  · intro z rng hhum
    apply process_zombie_turn_eq_none
    rw [hhum]
    rfl
  · intro h rng hzom
    cases hpc : pickupCandidate (doctorHealStep h) snap.items with
    | some it =>
      have hrn : (doctorHealStep h).roleName = none := pickupCandidate_roleName _ _ _ hpc
      obtain ⟨-, -, -, -, -, -, -, -, hrn2⟩ := doctorHealStep_frame h
      have hr : h.roleName = none := by rw [← hrn2]; exact hrn
      have hheal : doctorHealStep h = h := doctorHealStep_of_not_doctor h (by simp [hr])
      rw [process_human_turn_eq_some g h snap rng it hpc, hheal]
      rw [hheal] at hpc
      obtain ⟨-, -, -, -, -, -, hax, hay⟩ := assign_role_frame h it
      exact ⟨rfl, hax, hay, Or.inr ⟨hr, it, hpc, rfl⟩⟩
    | none =>
      rw [process_human_turn_eq_none g h snap rng hpc]
      have hfn : findNearestAgent (doctorHealStep h).x (doctorHealStep h).y snap.zombies = none := by
        rw [hzom]
        rfl
      rw [humanCombatPhase_eq_none g (doctorHealStep h) snap.zombies rng hfn]
      obtain ⟨-, -, -, -, -, -, hdx, hdy, -⟩ := doctorHealStep_frame h
      exact ⟨rfl, hdx, hdy, Or.inl rfl⟩

/-- An empty snapshot: no living humans, zombies or items. -/
def snapE : Snapshot := ⟨[], [], []⟩

/-- C10 witness: against the empty snapshot the zombie worker is a strict
no-op and the human worker only runs its heal branch. -/
theorem c10_witness :
    process_zombie_turn 20 zombieA snapE zrng = ⟨zombieA, [], []⟩ ∧
    ((process_human_turn 20 humanA snapE ⟨1, 10, 1⟩).buffered = [] ∧
     (process_human_turn 20 humanA snapE ⟨1, 10, 1⟩).update.x = humanA.x ∧
     (process_human_turn 20 humanA snapE ⟨1, 10, 1⟩).update.y = humanA.y ∧
     ((process_human_turn 20 humanA snapE ⟨1, 10, 1⟩).update = doctorHealStep humanA ∨
       (humanA.roleName = none ∧ ∃ it, pickupCandidate humanA snapE.items = some it ∧
         (process_human_turn 20 humanA snapE ⟨1, 10, 1⟩).update = assign_role_to_human humanA it))) :=
  ⟨(c10_theorem 20 snapE).1 zombieA zrng rfl,
   (c10_theorem 20 snapE).2 humanA ⟨1, 10, 1⟩ rfl⟩

end ZombieGame
